import Mathlib

/-!
Verification of the qualType parser of `clang/types/parser/parser.go`
(package `parser` of the c2go repository).

The parser is embedded shallowly: the Go functions `ParseType`,
`parser.parse`, `parser.lookupType`, `parser.parseArray`,
`parser.parseArrays`, `parser.parseFunc`, `parser.parseArgs` and
`parser.newPointer` are translated one-to-one into Lean functions over an
explicit parser state.  the Go mutable receiver `p` (scanner position,
current token, current literal) becomes the record `PState`, and the
`for`/`goto` control flow of `parser.parse` becomes a family of mutually
recursive functions, one per label (`parseLoop` for the top of the `for`
loop, `parseDispatch` for the `retry:` label, `parseIdent` for the
`ident:` label, `parseAfterIdent` for the trailing `if flags != 0` block,
`parseLParen`/`parseParenClose` for the `token.LPAREN` case and its
`nextTok:` label).  All loops are driven by an explicit fuel parameter;
running out of fuel yields the distinguished error `PErr.fuelOut`, which
no actual run of the translated code produces for the fuel supplied by
`ParseTypeToks`.

Calls into `log.Fatalln` (a process abort in Go) are modelled as the
error value `PErr.fatal` carrying the logged message.  The sentinel
errors `ErrNotFound`, `ErrInvalidType` and `io.ErrUnexpectedEOF` are the
constructors `PErr.notFound`, `PErr.invalidType` and
`PErr.unexpectedEOF`; the structured `ParseTypeError` is
`PErr.typeErr` with its three fields.
-/

namespace C2GoTypes

/-- Token kinds, mirroring the `go/token` kinds the parser inspects:
`IDENT`, `INT`, `MUL`, `LPAREN`, `RPAREN`, `LBRACK`, `RBRACK`, `COMMA`,
`XOR` (written `caret` here) and `EOF`.  `unknown` stands for any other
token kind (the Go `ILLEGAL` kind and the kinds the grammar never names). -/
inductive TokKind where
  | ident
  | int
  | mul
  | lparen
  | rparen
  | lbrack
  | rbrack
  | comma
  | caret
  | eof
  | unknown
deriving DecidableEq, Repr

/-- The Go `token.Token.String()` output for the kinds above, as used in error texts. -/
def tokString : TokKind → String
  | .ident => "IDENT"
  | .int => "INT"
  | .mul => "*"
  | .lparen => "("
  | .rparen => ")"
  | .lbrack => "["
  | .rbrack => "]"
  | .comma => ","
  | .caret => "^"
  | .eof => "EOF"
  | .unknown => "ILLEGAL"

/-- One scanned token: the `(pos, tok, lit)` triple produced by
`scanner.Scanner.Scan`. -/
structure Token where
  pos : Nat
  kind : TokKind
  lit : String
deriving DecidableEq, Repr

/-- The parser state: the source text (`p.s.Source()`), the not yet
scanned tokens, and the current `p.pos`, `p.tok`, `p.lit`. -/
structure PState where
  src : String
  toks : List Token
  pos : Nat
  tok : TokKind
  lit : String
deriving DecidableEq, Repr

/-- Method `p.next()`: scan one token.  An exhausted stream keeps yielding `EOF`
positioned just past the source text, as `go/scanner` does. -/
def pnext (s : PState) : PState :=
  match s.toks with
  | [] => ⟨s.src, [], s.src.length + 1, .eof, ""⟩
  | tk :: rest => ⟨s.src, rest, tk.pos, tk.kind, tk.lit⟩

/-- The primitive kinds the parser can produce, covering
`types.Typ[...]` basics plus the `ctypes` extras (`Long`, `Ulong`,
`LongDouble`, `Int128`, `Uint128`).  `rawPtr` models
`types.Typ[types.UnsafePointer]`, the opaque-pointer-sized unit type. -/
inductive BasicKind where
  | int8
  | uint8
  | int16
  | uint16
  | int32
  | uint32
  | int64
  | uint64
  | long
  | ulong
  | longDouble
  | int128
  | uint128
  | complex64
  | complex128
  | float32
  | float64
  | rawPtr
deriving DecidableEq, Repr

/-- The type representation built by the parser: primitives, the `Void`
marker (`ctypes.Void`), pointers (`types.NewPointer`), arrays
(`types.NewArray`, length `-1` for `[]`), and function signatures
(`types.NewSignature`; parameter names are irrelevant, a `nil` results
tuple is `none`). -/
inductive CType where
  | basic (k : BasicKind)
  | void
  | pointer (inner : CType)
  | array (inner : CType) (len : Int)
  | signature (params : List CType) (result : Option CType)
deriving Repr

mutual

/-- Boolean structural equality on `CType` (the nested `List` blocks the
derived instance, so it is written out). -/
def ctBeq : CType → CType → Bool
  | .basic k, .basic l => k = l
  | .void, .void => true
  | .pointer a, .pointer b => ctBeq a b
  | .array a n, .array b m => ctBeq a b && n = m
  | .signature ps r, .signature qs u => ctBeqList ps qs && ctBeqOpt r u
  | _, _ => false

/-- Pointwise `ctBeq` on lists. -/
def ctBeqList : List CType → List CType → Bool
  | [], [] => true
  | a :: as, b :: bs => ctBeq a b && ctBeqList as bs
  | _, _ => false

/-- Pointwise `ctBeq` on options. -/
def ctBeqOpt : Option CType → Option CType → Bool
  | none, none => true
  | some a, some b => ctBeq a b
  | _, _ => false

end

mutual

theorem ctBeq_iff : ∀ a b : CType, ctBeq a b = true ↔ a = b
  | .basic k, .basic l => by simp [ctBeq]
  | .basic _, .void | .basic _, .pointer _ | .basic _, .array _ _
  | .basic _, .signature _ _ => by simp [ctBeq]
  | .void, .basic _ | .void, .pointer _ | .void, .array _ _
  | .void, .signature _ _ => by simp [ctBeq]
  | .void, .void => by simp [ctBeq]
  | .pointer a, .pointer b => by simp [ctBeq, ctBeq_iff a b]
  | .pointer _, .basic _ | .pointer _, .void | .pointer _, .array _ _
  | .pointer _, .signature _ _ => by simp [ctBeq]
  | .array a n, .array b m => by simp [ctBeq, ctBeq_iff a b]
  | .array _ _, .basic _ | .array _ _, .void | .array _ _, .pointer _
  | .array _ _, .signature _ _ => by simp [ctBeq]
  | .signature ps r, .signature qs u => by
      simp [ctBeq, ctBeqList_iff ps qs, ctBeqOpt_iff r u]
  | .signature _ _, .basic _ | .signature _ _, .void
  | .signature _ _, .pointer _ | .signature _ _, .array _ _ => by simp [ctBeq]

theorem ctBeqList_iff : ∀ as bs : List CType, ctBeqList as bs = true ↔ as = bs
  | [], [] => by simp [ctBeqList]
  | [], _ :: _ | _ :: _, [] => by simp [ctBeqList]
  | a :: as, b :: bs => by simp [ctBeqList, ctBeq_iff a b, ctBeqList_iff as bs]

theorem ctBeqOpt_iff : ∀ a? b? : Option CType, ctBeqOpt a? b? = true ↔ a? = b?
  | none, none => by simp [ctBeqOpt]
  | none, some _ | some _, none => by simp [ctBeqOpt]
  | some a, some b => by simp [ctBeqOpt, ctBeq_iff a b]

end

instance : DecidableEq CType := fun a b => decidable_of_iff _ (ctBeq_iff a b)

instance {ε α : Type} [DecidableEq ε] [DecidableEq α] : DecidableEq (Except ε α) := fun a b => by
  cases a with
  | error e =>
    cases b with
    | error f => exact decidable_of_iff (e = f) (by simp)
    | ok y => exact isFalse (fun h => Except.noConfusion h)
  | ok x =>
    cases b with
    | error f => exact isFalse (fun h => Except.noConfusion h)
    | ok y => exact decidable_of_iff (x = y) (by simp)

/-- The external type registry: `p.scope.LookupParent(name, token.NoPos)`
followed by `o.Type()`.  Modelled from the spec: the symbol/type registry
is an external collaborator ("an external lookup keyed by name"), so a
lookup is a plain function from names to optional types. -/
def Reg : Type := String → Option CType

/-- A registry with no entries. -/
def regEmpty : Reg := fun _ => none

/-- A registry resolving the names the worked examples need: `void` to
the `Void` marker and `char` to the 8-bit signed integer (as the real
c2go scope, prepopulated by the surrounding package, does). -/
def regStd : Reg := fun name =>
  if name = "void" then some .void
  else if name = "char" then some (.basic .int8)
  else none

/-- Predicate `ctypes.NotVoid`.  Modelled from the spec: the `ctypes` package is
not part of the shown source; the spec says `Void` is "the explicit
empty/void marker", so `NotVoid` holds exactly off that marker. -/
def NotVoid : CType → Bool
  | .void => false
  | _ => true

/-- The errors a parse can produce.  `typeErr` is the structured
`ParseTypeError{QualType, Pos, ErrMsg}`; `notFound`, `invalidType` and
`unexpectedEOF` are the bare sentinels `ErrNotFound`, `ErrInvalidType`
and `io.ErrUnexpectedEOF`; `fatal` models a `log.Fatalln` process abort
with its message; `fuelOut` is the artefact of the fuel encoding and
corresponds to no Go behaviour. -/
inductive PErr where
  | typeErr (qualType : String) (pos : Nat) (errMsg : String)
  | notFound
  | invalidType
  | unexpectedEOF
  | fatal (msg : String)
  | fuelOut
deriving DecidableEq, Repr

/-- Method `p.newError(errMsg)`. -/
def newError (s : PState) (errMsg : String) : PErr :=
  .typeErr s.src s.pos errMsg

/-- Method `p.expect(tokExp)`: scan and require one token kind. -/
def expectTok (s : PState) (tokExp : TokKind) : Except PErr PState :=
  let s1 := pnext s
  if s1.tok = tokExp then .ok s1
  else .error (newError s1 ("expect " ++ tokString tokExp ++ ", got " ++ tokString s1.tok))

/-- Parse flag `FlagIsParam`. -/
def FlagIsParam : Nat := 1

/-- Parse flag `FlagGetRetType`. -/
def FlagGetRetType : Nat := 2

/-- Predicate `isParam(flags)`. -/
def isParam (flags : Nat) : Bool := flags &&& FlagIsParam ≠ 0

/-- Predicate `getRetType(flags)`. -/
def getRetType (flags : Nat) : Bool := flags &&& FlagGetRetType ≠ 0

/-- Qualifier flag `flagShort`. -/
def flagShort : Nat := 1

/-- Qualifier flag `flagLong`. -/
def flagLong : Nat := 2

/-- Qualifier flag `flagLongLong`. -/
def flagLongLong : Nat := 4

/-- Qualifier flag `flagUnsigned`. -/
def flagUnsigned : Nat := 8

/-- Qualifier flag `flagSigned`. -/
def flagSigned : Nat := 16

/-- Qualifier flag `flagComplex`. -/
def flagComplex : Nat := 32

/-- The `intTypes` table: resolution of keyword `int` under the flag
combinations over short/long/longlong/unsigned.  Unlisted indices are the
`nil` entries of the Go array literal (index 15,
`flagShort|flagLong|flagLongLong|flagUnsigned`, is the explicitly `nil`
one). -/
def intTypes (i : Nat) : Option CType :=
  match i with
  | 0 => some (.basic .int32)
  | 1 => some (.basic .int16)
  | 2 => some (.basic .long)
  | 6 => some (.basic .int64)
  | 8 => some (.basic .uint32)
  | 9 => some (.basic .uint16)
  | 10 => some (.basic .ulong)
  | 14 => some (.basic .uint64)
  | _ => none

/-- The Go expression `flags &^ flagSigned`: clear the `flagSigned` bit. -/
def clearSigned (flags : Nat) : Nat := flags ^^^ (flags &&& flagSigned)

/-- Method `parser.lookupType(lit, flags)`.  The `log.Fatalln("lookupType: TODO
- invalid type")` reached by every combination outside the table is the
`PErr.fatal` value with that message (the `return nil, ErrInvalidType`
after it is dead code in Go). -/
def lookupType (reg : Reg) (lit : String) (flags : Nat) : Except PErr CType :=
  if flags ≠ 0 then
    if flags &&& flagComplex ≠ 0 then
      if lit = "float" then .ok (.basic .complex64)
      else if lit = "double" then .ok (.basic .complex128)
      else .error (.fatal "lookupType: TODO - invalid type")
    else if lit = "int" then
      match intTypes (clearSigned flags) with
      | some t => .ok t
      | none => .error (.fatal "lookupType: TODO - invalid type")
    else if lit = "char" then
      if flags = flagUnsigned then .ok (.basic .uint8)
      else if flags = flagSigned then .ok (.basic .int8)
      else .error (.fatal "lookupType: TODO - invalid type")
    else if lit = "double" then
      if flags = flagLong then .ok (.basic .longDouble)
      else .error (.fatal "lookupType: TODO - invalid type")
    else if lit = "__int128" then
      if flags = flagSigned then .ok (.basic .int128)
      else if flags = flagUnsigned then .ok (.basic .uint128)
      else .error (.fatal "lookupType: TODO - invalid type")
    else .error (.fatal "lookupType: TODO - invalid type")
  else if lit = "int" then .ok (.basic .int32)
  else
    match reg lit with
    | some t => .ok t
    | none => .error .notFound

/-- Method `parser.newPointer(t)`: wrap in a pointer, except that a pointer to
`Void` becomes the opaque-pointer-sized unit type. -/
def newPointer (t : CType) : CType :=
  if NotVoid t then .pointer t else .basic .rawPtr

/-- Decimal value of a digit run (`none` on a non-digit). -/
def digitsVal : List Char → Nat → Option Nat
  | [], acc => some acc
  | c :: cs, acc =>
    if c.isDigit then digitsVal cs (acc * 10 + (c.toNat - 48)) else none

/-- The Go call `strconv.ParseInt(lit, 10, 64)` on an integer literal of the scanner. -/
def parseIntLit (lit : String) : Except String Int :=
  match lit.data with
  | [] => .error ("strconv.ParseInt: parsing \x22" ++ lit ++ "\x22: invalid syntax")
  | c :: cs =>
    match digitsVal (c :: cs) 0 with
    | none => .error ("strconv.ParseInt: parsing \x22" ++ lit ++ "\x22: invalid syntax")
    | some n =>
      if n ≤ 9223372036854775807 then .ok (Int.ofNat n)
      else .error ("strconv.ParseInt: parsing \x22" ++ lit ++ "\x22: value out of range")

/-- The tail of `parser.parseArray`: decay to a pointer in parameter
context (`isParam(inFlags)`), otherwise build the array type. -/
def arrForm (t : CType) (n : Int) (inFlags : Nat) : CType :=
  if isParam inFlags then newPointer t else .array t n

/-- Method `parser.parseArray(t, inFlags)`: one bracket group.  `]` right away
means unspecified length (`-1`); otherwise an integer literal then `]`. -/
def parseArray (s : PState) (t? : Option CType) (inFlags : Nat) :
    Except PErr (CType × PState) :=
  match t? with
  | none => .error (newError s "array to nil")
  | some t =>
    let s1 := pnext s
    match s1.tok with
    | .rbrack => .ok (arrForm t (-1) inFlags, s1)
    | .int =>
      match parseIntLit s1.lit with
      | .error msg => .error (newError s1 msg)
      | .ok n =>
        match expectTok s1 .rbrack with
        | .error e => .error e
        | .ok s2 => .ok (arrForm t n inFlags, s2)
    | _ => .error (newError s1 "array length not an integer")

/-- Method `parser.parseArrays(t, inFlags)`: consecutive bracket groups, each
wrapping the previous result, returning at end-of-input. -/
def parseArraysF (fuel : Nat) (s : PState) (t? : Option CType) (inFlags : Nat) :
    Except PErr (CType × PState) :=
  match fuel with
  | 0 => .error .fuelOut
  | fuel + 1 =>
    match parseArray s t? inFlags with
    | .error e => .error e
    | .ok (ret, s1) =>
      let s2 := pnext s1
      if s2.tok = .eof then .ok (ret, s2)
      else parseArraysF fuel s2 (some ret) inFlags
termination_by structural fuel

mutual

/-- The head of the `for` loop of `parser.parse`: scan one token, then
dispatch on it. -/
def parseLoop (reg : Reg) (fuel : Nat) (inFlags : Nat) (s : PState)
    (t : Option CType) (flags : Nat) (isConst : Bool) :
    Except PErr (CType × Bool × PState) :=
  match fuel with
  | 0 => .error .fuelOut
  | fuel + 1 => parseDispatch reg fuel inFlags (pnext s) t flags isConst
termination_by structural fuel

/-- The `retry:` label of `parser.parse`: the switch on the current
token. -/
def parseDispatch (reg : Reg) (fuel : Nat) (inFlags : Nat) (s : PState)
    (t : Option CType) (flags : Nat) (isConst : Bool) :
    Except PErr (CType × Bool × PState) :=
  match fuel with
  | 0 => .error .fuelOut
  | fuel + 1 =>
    match s.tok with
    | .ident => parseIdent reg fuel inFlags s t flags isConst
    | .mul =>
      match t with
      | none => .error (newError s "pointer to nil")
      | some t0 => parseLoop reg fuel inFlags s (some (newPointer t0)) flags isConst
    | .lbrack =>
      match parseArraysF fuel s t inFlags with
      | .error e => .error e
      | .ok (t1, s1) => parseLoop reg fuel inFlags s1 (some t1) flags isConst
    | .lparen => parseLParen reg fuel inFlags s t flags isConst
    | .rparen =>
      match t with
      | none => .ok (.void, isConst, s)
      | some t0 => .ok (t0, isConst, s)
    | .comma =>
      match t with
      | none => .error .unexpectedEOF
      | some t0 => .ok (t0, isConst, s)
    | .eof =>
      match t with
      | none => .error .unexpectedEOF
      | some t0 => .ok (t0, isConst, s)
    | _ => .error (.fatal ("c.types.ParseType: unknown - " ++ tokString s.tok ++ " " ++ s.lit))
termination_by structural fuel

/-- The `ident:` label of `parser.parse`: the switch on the current
literal of the identifier. -/
def parseIdent (reg : Reg) (fuel : Nat) (inFlags : Nat) (s : PState)
    (t : Option CType) (flags : Nat) (isConst : Bool) :
    Except PErr (CType × Bool × PState) :=
  match fuel with
  | 0 => .error .fuelOut
  | fuel + 1 =>
    if s.lit = "unsigned" then parseAfterIdent reg fuel inFlags s t (flags ||| flagUnsigned) isConst
    else if s.lit = "short" then parseAfterIdent reg fuel inFlags s t (flags ||| flagShort) isConst
    else if s.lit = "long" then
      if flags &&& flagLong ≠ 0 then
        parseAfterIdent reg fuel inFlags s t (flags ||| flagLongLong) isConst
      else
        parseAfterIdent reg fuel inFlags s t (flags ||| flagLong) isConst
    else if s.lit = "signed" then parseAfterIdent reg fuel inFlags s t (flags ||| flagSigned) isConst
    else if s.lit = "const" then parseAfterIdent reg fuel inFlags s t flags true
    else if s.lit = "_Complex" then parseAfterIdent reg fuel inFlags s t (flags ||| flagComplex) isConst
    else if s.lit = "volatile" ∨ s.lit = "restrict" ∨ s.lit = "_Nullable" ∨ s.lit = "_Nonnull" then
      parseAfterIdent reg fuel inFlags s t flags isConst
    else if s.lit = "struct" ∨ s.lit = "union" then
      let s1 := pnext s
      if s1.tok = .ident then parseResolve reg fuel inFlags s1 t flags isConst
      else .error (.fatal ("c.types.ParseType: struct/union - TODO: " ++ s1.lit))
    else parseResolve reg fuel inFlags s t flags isConst
termination_by structural fuel

/-- The `default:` arm of the `ident:` switch: resolve the current
literal as a type name (error if a type is already resolved). -/
def parseResolve (reg : Reg) (fuel : Nat) (inFlags : Nat) (s : PState)
    (t : Option CType) (flags : Nat) (isConst : Bool) :
    Except PErr (CType × Bool × PState) :=
  match fuel with
  | 0 => .error .fuelOut
  | fuel + 1 =>
    match t with
    | some _ => .error (newError s "illegal syntax: multiple types?")
    | none =>
      match lookupType reg s.lit flags with
      | .error e => .error e
      | .ok ty => parseAfterIdent reg fuel inFlags s (some ty) 0 isConst
termination_by structural fuel

/-- The `if flags != 0` block closing the `token.IDENT` case: pending
qualifier flags either combine with a following identifier or finalize
against the default keyword `int`. -/
def parseAfterIdent (reg : Reg) (fuel : Nat) (inFlags : Nat) (s : PState)
    (t : Option CType) (flags : Nat) (isConst : Bool) :
    Except PErr (CType × Bool × PState) :=
  match fuel with
  | 0 => .error .fuelOut
  | fuel + 1 =>
    if flags ≠ 0 then
      let s1 := pnext s
      if s1.tok = .ident then parseIdent reg fuel inFlags s1 t flags isConst
      else
        match t with
        | some _ => .error (newError s1 "illegal syntax: multiple types?")
        | none =>
          match lookupType reg "int" flags with
          | .error e => .error e
          | .ok ty => parseDispatch reg fuel inFlags s1 (some ty) 0 isConst
    else parseLoop reg fuel inFlags s t flags isConst
termination_by structural fuel

/-- The `token.LPAREN` case of `parser.parse`: parenthesized declarator
(`(*`/`(^`), or the `FlagGetRetType` early stop when the `(` is not
followed by `*`/`^`. -/
def parseLParen (reg : Reg) (fuel : Nat) (inFlags : Nat) (s : PState)
    (t : Option CType) (flags : Nat) (isConst : Bool) :
    Except PErr (CType × Bool × PState) :=
  match fuel with
  | 0 => .error .fuelOut
  | fuel + 1 =>
    match t with
    | none => .error (newError s "no function return type")
    | some t0 =>
      let s1 := pnext s
      if s1.tok = .mul ∨ s1.tok = .caret then
        match parseParenClose reg fuel s1 false [] with
        | .error e => .error e
        | .ok (isRetFn, args, s2) =>
          let s3 := pnext s2
          match s3.tok with
          | .lparen =>
            match parseFuncF reg fuel s3 t0 inFlags with
            | .error e => .error e
            | .ok (t1, s4) => parseParenFinish reg fuel inFlags s4 t1 isRetFn args flags isConst
          | .lbrack =>
            match parseArraysF fuel s3 (some t0) 0 with
            | .error e => .error e
            | .ok (t1, s4) => parseParenFinish reg fuel inFlags s4 t1 isRetFn args flags isConst
          | _ => .error (newError s3 ("unexpected " ++ tokString s3.tok))
      else if getRetType inFlags then .ok (t0, isConst, ⟨s1.src, s1.toks, s1.pos, .eof, s1.lit⟩)
      else .error (newError s1 ("expect *, got " ++ tokString s1.tok))
termination_by structural fuel

/-- The `nextTok:` scan loop inside the `token.LPAREN` case: skip
nullability annotations, capture at most one inner argument list
(`isRetFn`), and stop at the closing `)`. -/
def parseParenClose (reg : Reg) (fuel : Nat) (s : PState)
    (isRetFn : Bool) (args : List CType) :
    Except PErr (Bool × List CType × PState) :=
  match fuel with
  | 0 => .error .fuelOut
  | fuel + 1 =>
    let s1 := pnext s
    match s1.tok with
    | .rparen => .ok (isRetFn, args, s1)
    | .lparen =>
      if isRetFn = false then
        match parseArgsF reg fuel s1 with
        | .error e => .error e
        | .ok (args1, s2) => parseParenClose reg fuel s2 true args1
      else .error (newError s1 "expect )")
    | .ident =>
      if s1.lit = "_Nullable" ∨ s1.lit = "_Nonnull" then parseParenClose reg fuel s1 isRetFn args
      else .error (newError s1 "expect )")
    | _ => .error (newError s1 "expect )")
termination_by structural fuel

/-- The tail of the `token.LPAREN` case after the trailing `(args)` or
`[...]` was parsed into `t1`: either build the outer function whose
parameters were captured earlier (`isRetFn`, with the `FlagGetRetType`
early return), or wrap a non-signature in a plain pointer. -/
def parseParenFinish (reg : Reg) (fuel : Nat) (inFlags : Nat) (s : PState)
    (t1 : CType) (isRetFn : Bool) (args : List CType) (flags : Nat) (isConst : Bool) :
    Except PErr (CType × Bool × PState) :=
  match fuel with
  | 0 => .error .fuelOut
  | fuel + 1 =>
    if isRetFn then
      if getRetType inFlags then .ok (t1, isConst, ⟨s.src, s.toks, s.pos, .eof, s.lit⟩)
      else parseLoop reg fuel inFlags s (some (.signature args (some t1))) flags isConst
    else
      match t1 with
      | .signature ps r => parseLoop reg fuel inFlags s (some (.signature ps r)) flags isConst
      | _ => parseLoop reg fuel inFlags s (some (.pointer t1)) flags isConst
termination_by structural fuel

/-- Method `parser.parseFunc(pkg, t, inFlags)`: results from the current type
unless it is `Void`, parameters from the argument list. -/
def parseFuncF (reg : Reg) (fuel : Nat) (s : PState) (t : CType) (inFlags : Nat) :
    Except PErr (CType × PState) :=
  match fuel with
  | 0 => .error .fuelOut
  | fuel + 1 =>
    match parseArgsF reg fuel s with
    | .error e => .error e
    | .ok (args, s1) => .ok (.signature args (if NotVoid t then some t else none), s1)
termination_by structural fuel

/-- Method `parser.parseArgs(pkg)`: comma-separated parameter types, each
parsed with `FlagIsParam`, `Void` parameters dropped, ending on `)`. -/
def parseArgsF (reg : Reg) (fuel : Nat) (s : PState) :
    Except PErr (List CType × PState) :=
  match fuel with
  | 0 => .error .fuelOut
  | fuel + 1 =>
    match parseLoop reg fuel FlagIsParam s none 0 false with
    | .error e => .error e
    | .ok (arg, _, s1) =>
      if s1.tok = .comma then
        match parseArgsF reg fuel s1 with
        | .error e => .error e
        | .ok (rest, s2) => .ok ((if NotVoid arg then arg :: rest else rest), s2)
      else if s1.tok = .rparen then .ok ((if NotVoid arg then [arg] else []), s1)
      else .error (newError s1 "expect )")
termination_by structural fuel

end

/-- Fuel that dominates any run of `parser.parse` over the given
tokens. -/
def fuelOf (toks : List Token) : Nat := 4 * toks.length + 24

/-- Function `ParseType(fset, pkg, scope, qualType, flags)` over an explicit
token list: run `parser.parse`, then require the scanner to be
exhausted. -/
def ParseTypeToks (reg : Reg) (src : String) (toks : List Token) (flags : Nat) :
    Except PErr (CType × Bool) :=
  match parseLoop reg (fuelOf toks) flags ⟨src, toks, 0, .unknown, ""⟩ none 0 false with
  | .error e => .error e
  | .ok (t, isConst, s1) =>
    if s1.tok = .eof then .ok (t, isConst)
    else .error (newError s1 ("unexpect token " ++ tokString s1.tok))

/-- First character of an identifier token: a letter or `_`. -/
def isIdentFirst (c : Char) : Bool := c.isAlpha || c = '_'

/-- Continuation character of an identifier token. -/
def isIdentChar (c : Char) : Bool := c.isAlphanum || c = '_'

/-- Whether a character continues a token of the given kind (identifier
or integer literal). -/
def tokCont : TokKind → Char → Bool
  | .ident, c => isIdentChar c
  | .int, c => c.isDigit
  | _, _ => false

/-- Handle one character that does not continue a pending token: either
emit a symbol token (or an `unknown` one), skip a space, or open a fresh
identifier/integer token (returned as the new accumulator). -/
def tokStart (c : Char) (pos : Nat) : Option Token × Option (Nat × TokKind × List Char) :=
  if c = ' ' then (none, none)
  else if isIdentFirst c then (none, some (pos, .ident, [c]))
  else if c.isDigit then (none, some (pos, .int, [c]))
  else if c = '*' then (some ⟨pos, .mul, ""⟩, none)
  else if c = '(' then (some ⟨pos, .lparen, ""⟩, none)
  else if c = ')' then (some ⟨pos, .rparen, ""⟩, none)
  else if c = '[' then (some ⟨pos, .lbrack, ""⟩, none)
  else if c = ']' then (some ⟨pos, .rbrack, ""⟩, none)
  else if c = ',' then (some ⟨pos, .comma, ""⟩, none)
  else if c = '^' then (some ⟨pos, .caret, ""⟩, none)
  else (some ⟨pos, .unknown, String.mk [c]⟩, none)

/-- Modelled from the spec: the external tokenizer
(`clang/types/scanner`, not part of the shown source) streams
`(position, token-kind, literal-text)` triples for "identifiers, integer
literals, and syntax symbols `* ( ) [ ] ,`" plus `^`, ending in an
end-of-input token; positions are 1-based offsets into the source text
(`fset.AddFile` with base 1).  Characters outside that alphabet become
`unknown` tokens, which the parser treats as a fatal unknown token.  The
accumulator holds the start position, kind and reversed characters of a
pending identifier/integer token. -/
def tokenizeAux : List Char → Nat → Option (Nat × TokKind × List Char) → List Token
  | [], pos, none => [⟨pos, .eof, ""⟩]
  | [], pos, some (p0, k, rev) => [⟨p0, k, String.mk rev.reverse⟩, ⟨pos, .eof, ""⟩]
  | c :: cs, pos, none =>
    match tokStart c pos with
    | (none, acc1) => tokenizeAux cs (pos + 1) acc1
    | (some tk, acc1) => tk :: tokenizeAux cs (pos + 1) acc1
  | c :: cs, pos, some (p0, k, rev) =>
    if tokCont k c then tokenizeAux cs (pos + 1) (some (p0, k, c :: rev))
    else
      ⟨p0, k, String.mk rev.reverse⟩ ::
      match tokStart c pos with
      | (none, acc1) => tokenizeAux cs (pos + 1) acc1
      | (some tk, acc1) => tk :: tokenizeAux cs (pos + 1) acc1

/-- Function `ParseType` on a source string: tokenize, then parse. -/
def ParseTypeStr (reg : Reg) (qualType : String) (flags : Nat) :
    Except PErr (CType × Bool) :=
  ParseTypeToks reg qualType (tokenizeAux qualType.data 1 none) flags

/-- Whether a word is one of the qualifier keywords of the `ident:`
switch that do not resolve a base type: the flag setters, `const`, and
the ignored annotations. -/
def isQualKw (w : String) : Bool :=
  w = "unsigned" || w = "short" || w = "long" || w = "signed" || w = "const" ||
  w = "_Complex" || w = "volatile" || w = "restrict" || w = "_Nullable" || w = "_Nonnull"

/-- The effect of one qualifier keyword on the `(flags, isConst)`
accumulator, exactly as the corresponding `ident:` switch arm updates
it. -/
def applyQ (st : Nat × Bool) (w : String) : Nat × Bool :=
  if w = "unsigned" then (st.1 ||| flagUnsigned, st.2)
  else if w = "short" then (st.1 ||| flagShort, st.2)
  else if w = "long" then
    if st.1 &&& flagLong ≠ 0 then (st.1 ||| flagLongLong, st.2)
    else (st.1 ||| flagLong, st.2)
  else if w = "signed" then (st.1 ||| flagSigned, st.2)
  else if w = "const" then (st.1, true)
  else if w = "_Complex" then (st.1 ||| flagComplex, st.2)
  else st

/-- Words joined by single spaces. -/
def joinWords : List String → String
  | [] => ""
  | [w] => w
  | w :: ws => w ++ " " ++ joinWords ws

/-- The token stream of space-joined identifier words starting at the
given position: one identifier token per word, then end-of-input. -/
def wordToks : List String → Nat → List Token
  | [], pos => [⟨pos, .eof, ""⟩]
  | [w], pos => [⟨pos, .ident, w⟩, ⟨pos + w.length, .eof, ""⟩]
  | w :: ws, pos => ⟨pos, .ident, w⟩ :: wordToks ws (pos + w.length + 1)

/-- Whether a word lexes as one identifier token: nonempty, starting
with a letter or `_`, all characters identifier characters. -/
def isIdentWordB (w : String) : Bool :=
  match w.data with
  | [] => false
  | c :: cs => isIdentFirst c && (c :: cs).all isIdentChar

/-- Claim C1, counterexample: on
`int (*)(void *, int, char **, char **)` (registry resolving `char` and
`void`), the parser does not return a `Pointer` wrapping the function
signature — the claimed output is not the computed one. -/
theorem c1_counterexample :
    ParseTypeStr regStd "int (*)(void *, int, char **, char **)" 0 ≠
      .ok (.pointer (.signature
        [.basic .rawPtr, .basic .int32, .pointer (.pointer (.basic .int8)),
         .pointer (.pointer (.basic .int8))] (some (.basic .int32))), false) := by
  decide

/-- Claim C1 (amended): on `int (*)(void *, int, char **, char **)`
(both parse flags clear, registry resolving `char` and `void`),
parseType succeeds and returns the function signature itself — ordered
parameters [unsafe-pointer, int32, Pointer(Pointer(char)),
Pointer(Pointer(char))], result int32 — with no `Pointer` wrapper: a
parenthesized `(*)` declarator whose trailing group built a signature is
left unwrapped (function pointers are represented as bare function
types). -/
theorem c1_funcptr_bare_signature :
    ParseTypeStr regStd "int (*)(void *, int, char **, char **)" 0 =
      .ok (.signature
        [.basic .rawPtr, .basic .int32, .pointer (.pointer (.basic .int8)),
         .pointer (.pointer (.basic .int8))] (some (.basic .int32)), false) := by
  decide

/-- Claim C2, counterexample: a name missing from the registry is
surfaced as the bare sentinel `ErrNotFound`, which carries neither the
source text nor an offset, and an unrecognized qualifier combination is
a `log.Fatalln` process abort — not a structured positional error. -/
theorem c2_counterexample :
    ParseTypeStr regEmpty "foo" 0 = .error .notFound ∧
    ParseTypeStr regStd "unsigned float" 0 =
      .error (.fatal "lookupType: TODO - invalid type") := by
  decide

/-- Claim C2 (amended): every failure is returned to the caller as an
error value, but only syntax errors are structured `ParseTypeError`s
carrying source text, offset and message; a registry miss is the bare
`ErrNotFound`, premature end of input is the bare
`io.ErrUnexpectedEOF`, and an unrecognized keyword/qualifier
combination aborts the process via `log.Fatalln` (modelled as the
`fatal` error value). -/
theorem c2_error_surface :
    ParseTypeStr regStd "* int" 0 = .error (.typeErr "* int" 1 "pointer to nil") ∧
    ParseTypeStr regEmpty "foo" 0 = .error .notFound ∧
    ParseTypeStr regStd "const" 0 = .error .unexpectedEOF ∧
    ParseTypeStr regStd "unsigned float" 0 =
      .error (.fatal "lookupType: TODO - invalid type") := by
  decide

/-- Claim C3, counterexample: resolving `int` with
short+long+longlong+unsigned does not return the `ErrInvalidType`
sentinel — it hits the `log.Fatalln` abort (whose dead code would have
returned `ErrInvalidType`). -/
theorem c3_counterexample :
    lookupType regEmpty "int" (flagShort ||| flagLong ||| flagLongLong ||| flagUnsigned) ≠
      .error .invalidType ∧
    lookupType regEmpty "int" (flagShort ||| flagLong ||| flagLongLong ||| flagUnsigned) =
      .error (.fatal "lookupType: TODO - invalid type") := by
  decide

/-- Claim C3 (amended): the `int` resolution table gives exactly the
documented widths and signedness — none→int32, short→int16,
long→long-width, long+longlong→int64, unsigned→uint32,
short+unsigned→uint16, long+unsigned→ulong-width,
long+longlong+unsigned→uint64 — and short+long+longlong+unsigned
produces no type: it fails with the fatal invalid-type abort rather
than a returned `InvalidType` error. -/
theorem c3_int_table :
    lookupType regEmpty "int" 0 = .ok (.basic .int32) ∧
    lookupType regEmpty "int" flagShort = .ok (.basic .int16) ∧
    lookupType regEmpty "int" flagLong = .ok (.basic .long) ∧
    lookupType regEmpty "int" (flagLong ||| flagLongLong) = .ok (.basic .int64) ∧
    lookupType regEmpty "int" flagUnsigned = .ok (.basic .uint32) ∧
    lookupType regEmpty "int" (flagShort ||| flagUnsigned) = .ok (.basic .uint16) ∧
    lookupType regEmpty "int" (flagLong ||| flagUnsigned) = .ok (.basic .ulong) ∧
    lookupType regEmpty "int" (flagLong ||| flagLongLong ||| flagUnsigned) =
      .ok (.basic .uint64) ∧
    lookupType regEmpty "int" (flagShort ||| flagLong ||| flagLongLong ||| flagUnsigned) =
      .error (.fatal "lookupType: TODO - invalid type") := by
  decide

/-- Predicate `NotVoid` holds exactly on the non-`Void` types. -/
theorem NotVoid_true_iff (t : CType) : NotVoid t = true ↔ t ≠ .void := by
  cases t <;> simp [NotVoid]

/-- Claim C4, counterexample: an array over element `Void` in parameter
context decays to the opaque-pointer-sized unit type, not to
`Pointer(Void)` — the element type is not wrapped in a `Pointer`. -/
theorem c4_counterexample :
    ParseTypeStr regStd "void [10]" FlagIsParam = .ok (.basic .rawPtr, false) ∧
    ParseTypeStr regStd "void [10]" FlagIsParam ≠ .ok (.pointer .void, false) := by
  decide

/-- Claim C4 (amended): every array bracket group parsed with `IsParam`
set produces the pointer decay `newPointer` of the element type —
`Pointer(elem)` for non-`Void` elements, the unsafe-pointer unit type
for `Void` — and never an `Array` value; `int [10]` parses to
`Pointer(int32)` with the flag set and to `Array(int32, 10)` with it
clear. -/
theorem c4_param_array_decays :
    (∀ (s : PState) (t0 : CType) (inFlags : Nat) (r : CType) (s1 : PState),
      isParam inFlags = true →
      parseArray s (some t0) inFlags = .ok (r, s1) →
      r = newPointer t0) ∧
    (∀ (t e : CType) (n : Int), newPointer t ≠ .array e n) ∧
    ParseTypeStr regStd "int [10]" FlagIsParam = .ok (.pointer (.basic .int32), false) ∧
    ParseTypeStr regStd "int [10]" 0 = .ok (.array (.basic .int32) 10, false) := by
  refine ⟨?_, ?_, by decide, by decide⟩
  · intro s t0 inFlags r s1 hp h
    simp only [parseArray] at h
    split at h
    · simp only [Except.ok.injEq, Prod.mk.injEq] at h
      rw [← h.1]
      simp [arrForm, hp]
    · split at h
      · exact absurd h (by simp)
      · split at h
        · exact absurd h (by simp)
        · simp only [Except.ok.injEq, Prod.mk.injEq] at h
          rw [← h.1]
          simp [arrForm, hp]
    · exact absurd h (by simp)
  · intro t e n
    cases t <;> simp [newPointer, NotVoid]

/-- Witness for C4: the decay conclusion at a concrete successful
bracket-group parse with `FlagIsParam`. -/
theorem c4_witness :
    isParam FlagIsParam = true ∧
    CType.pointer (.basic .int32) = newPointer (.basic .int32) :=
  ⟨by decide, c4_param_array_decays.1
    ⟨"int [10]", [⟨6, .int, "10"⟩, ⟨8, .rbrack, ""⟩, ⟨9, .eof, ""⟩], 5, .lbrack, ""⟩
    (.basic .int32) FlagIsParam (.pointer (.basic .int32))
    ⟨"int [10]", [⟨9, .eof, ""⟩], 8, .rbrack, ""⟩ (by decide) (by decide)⟩

/-- Claim C5: at a `(` whose next token is neither `*` nor `^`, a call
carrying `FlagGetRetType` returns its current partial result
successfully with the token forced to end-of-input, while a call
without the flag fails with the `expect *` error; concretely,
`int (int)` parses to `int32` under `FlagGetRetType` and errors without
it. -/
theorem c5_getrettype_early_stop :
    (∀ (reg : Reg) (fuel inFlags : Nat) (s : PState) (t0 : CType) (flags : Nat) (c : Bool),
      s.tok = .lparen →
      (pnext s).tok ≠ .mul →
      (pnext s).tok ≠ .caret →
      (getRetType inFlags = true →
        parseLParen reg (fuel + 1) inFlags s (some t0) flags c =
          .ok (t0, c, ⟨(pnext s).src, (pnext s).toks, (pnext s).pos, .eof, (pnext s).lit⟩)) ∧
      (getRetType inFlags = false →
        parseLParen reg (fuel + 1) inFlags s (some t0) flags c =
          .error (newError (pnext s) ("expect *, got " ++ tokString (pnext s).tok)))) ∧
    ParseTypeStr regStd "int (int)" FlagGetRetType = .ok (.basic .int32, false) ∧
    ParseTypeStr regStd "int (int)" 0 =
      .error (.typeErr "int (int)" 6 "expect *, got IDENT") := by
  refine ⟨?_, by decide, by decide⟩
  intro reg fuel inFlags s t0 flags c _htok hm hc
  constructor
  · intro hg
    simp [parseLParen, hm, hc, hg]
  · intro hg
    simp [parseLParen, hm, hc, hg]

/-- Witness for C5: the early stop at a concrete state (`int (int)`
just after `int` was resolved and `(` scanned, flag set). -/
theorem c5_witness :
    parseLParen regEmpty 1 FlagGetRetType
      ⟨"int (int)", [⟨6, .ident, "int"⟩, ⟨9, .rparen, ""⟩, ⟨10, .eof, ""⟩], 5, .lparen, ""⟩
      (some (.basic .int32)) 0 false =
      .ok (.basic .int32, false,
        ⟨"int (int)", [⟨9, .rparen, ""⟩, ⟨10, .eof, ""⟩], 6, .eof, "int"⟩) :=
  (c5_getrettype_early_stop.1 regEmpty 0 FlagGetRetType
    ⟨"int (int)", [⟨6, .ident, "int"⟩, ⟨9, .rparen, ""⟩, ⟨10, .eof, ""⟩], 5, .lparen, ""⟩
    (.basic .int32) 0 false rfl (by decide) (by decide)).1 (by decide)

/-- Claim C6, counterexample: a `void` parameter in the middle of an
argument list is also dropped — `int (*)(int, void, int)` yields the
two-parameter list [int32, int32], not the three-parameter list keeping
the non-sole `void`. -/
theorem c6_counterexample :
    ParseTypeStr regStd "int (*)(int, void, int)" 0 =
      .ok (.signature [.basic .int32, .basic .int32] (some (.basic .int32)), false) ∧
    ParseTypeStr regStd "int (*)(int, void, int)" 0 ≠
      .ok (.signature [.basic .int32, .void, .basic .int32] (some (.basic .int32)), false) := by
  decide

/-- Claim C6 (amended): argument-list parsing appends each parameter
unless it is `void` (every `void` parameter is dropped, so `(void)`
gives the empty list), keeps every non-void parameter in order, and
ends on `)` or fails with the `expect )` error. -/
theorem c6_args_drop_void :
    (∀ (reg : Reg) (fuel : Nat) (s : PState) (args : List CType) (s1 : PState),
      parseArgsF reg fuel s = .ok (args, s1) →
      ¬ CType.void ∈ args ∧ s1.tok = .rparen) ∧
    ParseTypeStr regStd "int (*)(void)" 0 =
      .ok (.signature [] (some (.basic .int32)), false) ∧
    ParseTypeStr regStd "int (*)(int, char)" 0 =
      .ok (.signature [.basic .int32, .basic .int8] (some (.basic .int32)), false) ∧
    ParseTypeStr regStd "int (*)(int" 0 =
      .error (.typeErr "int (*)(int" 12 "expect )") := by
  refine ⟨?_, by decide, by decide, by decide⟩
  intro reg fuel
  induction fuel with
  | zero =>
    intro s args s1 h
    exact absurd h (by simp [parseArgsF])
  | succ f ih =>
    intro s args s1 h
    simp only [parseArgsF] at h
    cases hL : parseLoop reg f FlagIsParam s none 0 false with
    | error e =>
      rw [hL] at h
      exact absurd h (by simp)
    | ok res =>
      obtain ⟨arg, cc, s2⟩ := res
      rw [hL] at h
      dsimp only at h
      by_cases hcm : s2.tok = .comma
      · rw [if_pos hcm] at h
        cases hA : parseArgsF reg f s2 with
        | error e =>
          rw [hA] at h
          exact absurd h (by simp)
        | ok res2 =>
          obtain ⟨rest, s3⟩ := res2
          rw [hA] at h
          simp only [Except.ok.injEq, Prod.mk.injEq] at h
          obtain ⟨h1, h2⟩ := h
          have hrec := ih s2 rest s3 hA
          subst h1 h2
          refine ⟨?_, hrec.2⟩
          cases hNV : NotVoid arg with
          | false => simpa [hNV] using hrec.1
          | true =>
            simp only [hNV, if_true]
            intro hmem
            rcases List.mem_cons.mp hmem with hv | hv
            · exact (NotVoid_true_iff arg).mp hNV hv.symm
            · exact hrec.1 hv
      · rw [if_neg hcm] at h
        by_cases hrp : s2.tok = .rparen
        · rw [if_pos hrp] at h
          simp only [Except.ok.injEq, Prod.mk.injEq] at h
          obtain ⟨h1, h2⟩ := h
          subst h1 h2
          refine ⟨?_, hrp⟩
          cases hNV : NotVoid arg with
          | false => simp [hNV]
          | true =>
            simp only [hNV, if_true]
            intro hmem
            rcases List.mem_singleton.mp hmem with hv
            exact (NotVoid_true_iff arg).mp hNV hv.symm
        · rw [if_neg hrp] at h
          exact absurd h (by simp)

/-- Witness for C6: the no-`void`, ends-on-`)` conclusion at a concrete
successful argument-list parse of `(void)`. -/
theorem c6_witness :
    ¬ CType.void ∈ ([] : List CType) ∧
    (⟨"(void)", [⟨7, .eof, ""⟩], 6, .rparen, ""⟩ : PState).tok = .rparen :=
  c6_args_drop_void.1 regStd 20
    ⟨"(void)", [⟨2, .ident, "void"⟩, ⟨6, .rparen, ""⟩, ⟨7, .eof, ""⟩], 1, .lparen, ""⟩
    [] ⟨"(void)", [⟨7, .eof, ""⟩], 6, .rparen, ""⟩ (by decide)

/-- Claim C7: the pointer rule maps `Void` to the opaque-pointer-sized
unit type (never `Pointer(Void)`) and any other type `t` to
`Pointer(t)`; in particular `void *` parses to the unit type. -/
theorem c7_pointer_rule :
    newPointer .void = .basic .rawPtr ∧
    (∀ t : CType, t ≠ .void → newPointer t = .pointer t) ∧
    ParseTypeStr regStd "void *" 0 = .ok (.basic .rawPtr, false) := by
  refine ⟨rfl, ?_, by decide⟩
  intro t h
  cases t with
  | void => exact absurd rfl h
  | basic k => rfl
  | pointer a => rfl
  | array a n => rfl
  | signature ps r => rfl

/-- Witness for C7 at `t = int32`. -/
theorem c7_witness :
    newPointer (.basic .int32) = .pointer (.basic .int32) :=
  c7_pointer_rule.2.1 (.basic .int32) (by decide)

/-- Claim C9: `void` (with `returnTypeOnly` clear) parses to `Void`
with `isConst = false`, and in any recursive call a `)` reached with no
type yet resolved yields `Void` rather than an error. -/
theorem c9_void_results :
    ParseTypeStr regStd "void" 0 = .ok (.void, false) ∧
    (∀ (reg : Reg) (fuel inFlags : Nat) (s : PState) (flags : Nat) (c : Bool),
      s.tok = .rparen →
      parseDispatch reg (fuel + 1) inFlags s none flags c = .ok (.void, c, s)) := by
  refine ⟨by decide, ?_⟩
  intro reg fuel inFlags s flags c h
  simp [parseDispatch, h]

/-- Witness for C9: a concrete state whose current token is `)`. -/
theorem c9_witness :
    parseDispatch regEmpty 1 0 ⟨"()", [⟨3, .eof, ""⟩], 2, .rparen, ""⟩ none 0 false =
      .ok (.void, false, ⟨"()", [⟨3, .eof, ""⟩], 2, .rparen, ""⟩) :=
  c9_void_results.2 regEmpty 0 0 ⟨"()", [⟨3, .eof, ""⟩], 2, .rparen, ""⟩ 0 false rfl

/-- The resolution of the keyword `int` never consults the registry. -/
theorem lookupType_int_reg (reg : Reg) (f : Nat) :
    lookupType reg "int" f = lookupType regEmpty "int" f := by
  by_cases h : f = 0 <;> simp [lookupType, h]

/-- Claim C10: resolving `int` under a nonempty, complex-free flag set
ignores the signed flag entirely — the result equals the one for the
set with signed removed — and in particular `signed unsigned int`
resolves to uint32 instead of being rejected. -/
theorem c10_signed_ignored :
    (∀ (reg : Reg) (f : Nat), f ≠ 0 → f &&& flagComplex = 0 → f < 64 →
      lookupType reg "int" f = lookupType reg "int" (clearSigned f)) ∧
    ParseTypeStr regEmpty "signed unsigned int" 0 = .ok (.basic .uint32, false) := by
  refine ⟨?_, by decide⟩
  intro reg f h0 hc h64
  rw [lookupType_int_reg reg f, lookupType_int_reg reg (clearSigned f)]
  revert h0 hc
  have H : ∀ g, g < 64 → (g ≠ 0 → g &&& flagComplex = 0 →
      lookupType regEmpty "int" g = lookupType regEmpty "int" (clearSigned g)) := by decide
  exact H f h64

/-- Witness for C10 at the flag set signed+unsigned. -/
theorem c10_witness :
    lookupType regEmpty "int" (flagSigned ||| flagUnsigned) =
      lookupType regEmpty "int" (clearSigned (flagSigned ||| flagUnsigned)) :=
  c10_signed_ignored.1 regEmpty (flagSigned ||| flagUnsigned)
    (by decide) (by decide) (by decide)

/-- A qualifier-keyword identifier advances `parseIdent` to
`parseAfterIdent` with the accumulator updated by `applyQ`. -/
theorem parseIdent_qual (reg : Reg) (f inFlags : Nat) (s : PState)
    (t : Option CType) (flags : Nat) (c : Bool)
    (hw : isQualKw s.lit = true) :
    parseIdent reg (f + 1) inFlags s t flags c =
      parseAfterIdent reg f inFlags s t
        (applyQ (flags, c) s.lit).1 (applyQ (flags, c) s.lit).2 := by
  simp only [isQualKw, Bool.or_eq_true, decide_eq_true_eq] at hw
  rcases hw with ((((((((h | h) | h) | h) | h) | h) | h) | h) | h) | h <;>
      simp [parseIdent, h, applyQ] <;>
    by_cases hl : flags &&& flagLong = 0 <;> simp [hl]

/-- A non-qualifier, non-struct/union identifier followed only by
end-of-input resolves the name and finishes at the scanned
end-of-input token. -/
theorem resolveRun (reg : Reg) (f inFlags : Nat) (src : String) (pos pe : Nat)
    (b : String) (flags : Nat) (c : Bool)
    (hb : isQualKw b = false) (hs : b ≠ "struct") (hu : b ≠ "union") :
    parseIdent reg (f + 5) inFlags ⟨src, [⟨pe, .eof, ""⟩], pos, .ident, b⟩ none flags c =
      Except.map (fun ty => (ty, c, (⟨src, [], pe, .eof, ""⟩ : PState)))
        (lookupType reg b flags) := by
  simp only [isQualKw, Bool.or_eq_false_iff, decide_eq_false_iff_not] at hb
  obtain ⟨⟨⟨⟨⟨⟨⟨⟨⟨h1, h2⟩, h3⟩, h4⟩, h5⟩, h6⟩, h7⟩, h8⟩, h9⟩, h10⟩ := hb
  cases hlk : lookupType reg b flags with
  | error e =>
    simp [parseIdent, parseResolve, parseAfterIdent, parseLoop, parseDispatch, pnext,
      h1, h2, h3, h4, h5, h6, h7, h8, h9, h10, hs, hu, hlk, Except.map]
  | ok ty =>
    simp [parseIdent, parseResolve, parseAfterIdent, parseLoop, parseDispatch, pnext,
      h1, h2, h3, h4, h5, h6, h7, h8, h9, h10, hs, hu, hlk, Except.map]

/-- With pending flags and an identifier next, `parseAfterIdent` scans
it and continues at `parseIdent`. -/
theorem afterIdent_toIdent (reg : Reg) (f inFlags : Nat) (s : PState)
    (t : Option CType) (flags : Nat) (c : Bool)
    (hf : flags ≠ 0) (h : (pnext s).tok = .ident) :
    parseAfterIdent reg (f + 1) inFlags s t flags c =
      parseIdent reg f inFlags (pnext s) t flags c := by
  simp [parseAfterIdent, hf, h]

/-- With no pending flags and an identifier next, the loop scans it and
dispatches to `parseIdent`. -/
theorem loop_toIdent (reg : Reg) (f inFlags : Nat) (s : PState)
    (t : Option CType) (flags : Nat) (c : Bool) (h : (pnext s).tok = .ident) :
    parseLoop reg (f + 2) inFlags s t flags c =
      parseIdent reg f inFlags (pnext s) t flags c := by
  simp [parseLoop, parseDispatch, h]

/-- Function `parseAfterIdent` with zero flags followed by an identifier token
reaches `parseIdent` three fuel steps later. -/
theorem afterIdentZero_toIdent (reg : Reg) (f inFlags : Nat) (s : PState)
    (t : Option CType) (c : Bool) (h : (pnext s).tok = .ident) :
    parseAfterIdent reg (f + 3) inFlags s t 0 c =
      parseIdent reg f inFlags (pnext s) t 0 c := by
  have h1 : parseAfterIdent reg (f + 3) inFlags s t 0 c =
      parseLoop reg (f + 2) inFlags s t 0 c := by
    simp [parseAfterIdent]
  rw [h1, loop_toIdent reg f inFlags s t 0 c h]

/-- Running `parseIdent` on a qualifier-keyword identifier followed by
further qualifier identifiers, a base identifier and end-of-input
resolves the base name against the `applyQ`-fold of all the qualifier
keywords, finishing at the end-of-input token. -/
theorem qualRun (qs : List String) :
    ∀ (ts : List Token) (w b : String) (tb : Token)
      (reg : Reg) (inFlags : Nat) (src : String) (pos pe : Nat)
      (flags : Nat) (c : Bool) (f : Nat),
      isQualKw w = true →
      isQualKw b = false → b ≠ "struct" → b ≠ "union" →
      List.Forall₂ (fun (tk : Token) (x : String) =>
        (tk.kind = .ident ∧ tk.lit = x) ∧ isQualKw x = true) ts qs →
      tb.kind = .ident → tb.lit = b →
      parseIdent reg (4 * qs.length + f + 9) inFlags
        ⟨src, ts ++ [tb, ⟨pe, .eof, ""⟩], pos, .ident, w⟩ none flags c =
        Except.map (fun ty => (ty, (List.foldl applyQ (flags, c) (w :: qs)).2,
            (⟨src, [], pe, .eof, ""⟩ : PState)))
          (lookupType reg b (List.foldl applyQ (flags, c) (w :: qs)).1) := by
  induction qs with
  | nil =>
    intro ts w b tb reg inFlags src pos pe flags c f hw hb hbs hbu hts htb1 htb2
    cases hts
    simp only [List.length_nil, Nat.mul_zero, Nat.zero_add, List.nil_append,
      List.foldl_cons, List.foldl_nil]
    rw [parseIdent_qual reg (f + 8) inFlags
      ⟨src, [tb, ⟨pe, .eof, ""⟩], pos, .ident, w⟩ none flags c hw]
    have hpn : pnext (⟨src, [tb, ⟨pe, .eof, ""⟩], pos, .ident, w⟩ : PState) =
        ⟨src, [⟨pe, .eof, ""⟩], tb.pos, .ident, b⟩ := by
      simp [pnext, htb1, htb2]
    by_cases ha : (applyQ (flags, c) w).1 = 0
    · rw [ha]
      rw [show f + 8 = (f + 5) + 3 from rfl]
      rw [afterIdentZero_toIdent reg (f + 5) inFlags _ none _ (by rw [hpn])]
      rw [hpn]
      exact resolveRun reg f inFlags src tb.pos pe b 0 _ hb hbs hbu
    · rw [show f + 8 = (f + 7) + 1 from rfl]
      rw [afterIdent_toIdent reg (f + 7) inFlags _ none _ _ ha (by rw [hpn])]
      rw [hpn]
      exact resolveRun reg (f + 2) inFlags src tb.pos pe b _ _ hb hbs hbu
  | cons q qs ih =>
    intro ts w b tb reg inFlags src pos pe flags c f hw hb hbs hbu hts htb1 htb2
    obtain ⟨t1, ts1, ⟨⟨hk, hl⟩, hq⟩, hrest, rfl⟩ := List.forall₂_cons_right_iff.mp hts
    simp only [List.length_cons, List.cons_append, List.foldl_cons]
    rw [show 4 * (qs.length + 1) + f + 9 = (4 * qs.length + f + 12) + 1 from by ring]
    rw [parseIdent_qual reg (4 * qs.length + f + 12) inFlags
      ⟨src, t1 :: (ts1 ++ [tb, ⟨pe, .eof, ""⟩]), pos, .ident, w⟩ none flags c hw]
    have hpn : pnext (⟨src, t1 :: (ts1 ++ [tb, ⟨pe, .eof, ""⟩]), pos, .ident, w⟩ : PState) =
        ⟨src, ts1 ++ [tb, ⟨pe, .eof, ""⟩], t1.pos, .ident, q⟩ := by
      simp [pnext, hk, hl]
    by_cases ha : (applyQ (flags, c) w).1 = 0
    · have hpair : applyQ (flags, c) w = (0, (applyQ (flags, c) w).2) := by
        rw [← ha]
      rw [hpair]
      dsimp only
      rw [show 4 * qs.length + f + 12 = (4 * qs.length + f + 9) + 3 from rfl]
      rw [afterIdentZero_toIdent reg (4 * qs.length + f + 9) inFlags _ none _ (by rw [hpn])]
      rw [hpn]
      exact ih ts1 q b tb reg inFlags src t1.pos pe 0 (applyQ (flags, c) w).2 f
        hq hb hbs hbu hrest htb1 htb2
    · rw [show 4 * qs.length + f + 12 = (4 * qs.length + f + 11) + 1 from rfl]
      rw [afterIdent_toIdent reg (4 * qs.length + f + 11) inFlags _ none _ _ ha (by rw [hpn])]
      rw [hpn]
      exact ih ts1 q b tb reg inFlags src t1.pos pe
        (applyQ (flags, c) w).1 (applyQ (flags, c) w).2 (f + 2)
        hq hb hbs hbu hrest htb1 htb2

/-- Scanning identifier characters extends the pending identifier token
until the first non-identifier character (or the end), which flushes
it. -/
theorem tok_ident_acc :
    ∀ (cs rest : List Char) (pos p0 : Nat) (rev : List Char),
      (∀ ch ∈ cs, isIdentChar ch = true) →
      (∀ ch ∈ rest.head?, isIdentChar ch = false) →
      tokenizeAux (cs ++ rest) pos (some (p0, .ident, rev)) =
        ⟨p0, .ident, String.mk (rev.reverse ++ cs)⟩ ::
          tokenizeAux rest (pos + cs.length) none := by
  intro cs
  induction cs with
  | nil =>
    intro rest pos p0 rev _ hrest
    cases rest with
    | nil => simp [tokenizeAux]
    | cons ch cs2 =>
      have hch : isIdentChar ch = false := hrest ch rfl
      simp [tokenizeAux, tokCont, hch]
  | cons ch cs2 ih =>
    intro rest pos p0 rev hcs hrest
    have hch : isIdentChar ch = true := hcs ch (by simp)
    simp only [List.cons_append, tokenizeAux, tokCont, hch, if_true, List.append_eq]
    rw [ih rest (pos + 1) p0 (ch :: rev) (fun x hx => hcs x (by simp [hx])) hrest]
    have harith : pos + 1 + cs2.length = pos + (ch :: cs2).length := by
      simp only [List.length_cons]
      omega
    have hlist : (ch :: rev).reverse ++ cs2 = rev.reverse ++ (ch :: cs2) := by
      simp [List.reverse_cons, List.append_assoc]
    rw [harith, hlist]

/-- One identifier word at the head of the character stream produces
one identifier token. -/
theorem tok_word (w : String) (rest : List Char) (pos : Nat)
    (hw : isIdentWordB w = true)
    (hrest : ∀ ch ∈ rest.head?, isIdentChar ch = false) :
    tokenizeAux (w.data ++ rest) pos none =
      ⟨pos, .ident, w⟩ :: tokenizeAux rest (pos + w.length) none := by
  cases hd : w.data with
  | nil =>
    rw [isIdentWordB, hd] at hw
    exact absurd hw (by simp)
  | cons c cs =>
    rw [isIdentWordB, hd] at hw
    simp only [Bool.and_eq_true, List.all_eq_true] at hw
    obtain ⟨hfirst, hall⟩ := hw
    have hcsp : ¬ c = ' ' := by
      intro h
      rw [h] at hfirst
      exact absurd hfirst (by decide)
    simp only [List.cons_append, tokenizeAux, tokStart, hcsp, if_false, hfirst, if_true,
      List.append_eq]
    rw [tok_ident_acc cs rest (pos + 1) pos [c]
      (fun x hx => hall x (by simp [hx])) hrest]
    have hstr : String.mk (([c] : List Char).reverse ++ cs) = w := by
      have : String.mk w.data = w := rfl
      rw [← this, hd]
      simp
    have harith : pos + 1 + cs.length = pos + w.length := by
      have : w.length = w.data.length := rfl
      rw [this, hd]
      simp only [List.length_cons]
      omega
    rw [hstr, harith]

/-- Tokenizing space-joined identifier words yields exactly one
identifier token per word plus the final end-of-input token. -/
theorem tok_words : ∀ (ws : List String) (pos : Nat), ws ≠ [] →
    (∀ w ∈ ws, isIdentWordB w = true) →
    tokenizeAux (joinWords ws).data pos none = wordToks ws pos := by
  intro ws
  induction ws with
  | nil =>
    intro pos h _
    exact absurd rfl h
  | cons w ws ih =>
    intro pos _ hwords
    cases ws with
    | nil =>
      have hone := tok_word w [] pos (hwords w (by simp)) (by simp)
      simpa [joinWords, wordToks, tokenizeAux] using hone
    | cons w2 ws2 =>
      have hj : (joinWords (w :: w2 :: ws2)).data =
          w.data ++ (' ' :: (joinWords (w2 :: ws2)).data) := by
        simp [joinWords, String.data_append]
      rw [hj]
      rw [tok_word w _ pos (hwords w (by simp))
        (by intro ch hch; simp at hch; rw [← hch]; decide)]
      have hspace : ∀ (l : List Char) (p : Nat),
          tokenizeAux (' ' :: l) p none = tokenizeAux l (p + 1) none := by
        intro l p
        simp [tokenizeAux, tokStart]
      rw [hspace]
      rw [ih (pos + w.length + 1) (by simp) (fun x hx => hwords x (by simp [hx]))]
      simp [wordToks]

/-- Splitting `wordToks` of `qs ++ [b]` into identifier tokens for `qs`, an
identifier token for `b`, and the end-of-input token. -/
theorem wordToks_decomp :
    ∀ (qs : List String) (b : String) (pos : Nat),
      ∃ (ts : List Token) (tb : Token) (pe : Nat),
        wordToks (qs ++ [b]) pos = ts ++ [tb, ⟨pe, .eof, ""⟩] ∧
        List.Forall₂ (fun (tk : Token) (x : String) => tk.kind = .ident ∧ tk.lit = x) ts qs ∧
        tb.kind = .ident ∧ tb.lit = b := by
  intro qs
  induction qs with
  | nil =>
    intro b pos
    exact ⟨[], ⟨pos, .ident, b⟩, pos + b.length, by simp [wordToks], .nil, rfl, rfl⟩
  | cons q qs ih =>
    intro b pos
    obtain ⟨ts, tb, pe, hdec, hfa, htb1, htb2⟩ := ih b (pos + q.length + 1)
    rcases hqb : qs ++ [b] with _ | ⟨x, xs⟩
    · exact absurd hqb (by simp)
    · refine ⟨⟨pos, .ident, q⟩ :: ts, tb, pe, ?_, .cons ⟨rfl, rfl⟩ hfa, htb1, htb2⟩
      have hw1 : wordToks (q :: (qs ++ [b])) pos =
          ⟨pos, .ident, q⟩ :: wordToks (qs ++ [b]) (pos + q.length + 1) := by
        rw [hqb]
        simp [wordToks]
      simp only [List.cons_append]
      rw [hw1, hdec]

/-- Function `wordToks` produces one token per word plus end-of-input. -/
theorem wordToks_length : ∀ (ws : List String) (pos : Nat),
    (wordToks ws pos).length = ws.length + 1 := by
  intro ws
  induction ws with
  | nil => intro pos; simp [wordToks]
  | cons w ws ih =>
    intro pos
    cases ws with
    | nil => simp [wordToks]
    | cons w2 ws2 => simp [wordToks, ih]

/-- Zip a membership property into an existing `Forall₂`. -/
theorem forall₂_strengthen {α β : Type} {R : α → β → Prop} {P : β → Prop} :
    ∀ {ts : List α} {qs : List β}, List.Forall₂ R ts qs → (∀ x ∈ qs, P x) →
      List.Forall₂ (fun t x => R t x ∧ P x) ts qs := by
  intro ts qs h
  induction h with
  | nil => intro _; exact .nil
  | cons hR hrest ih =>
    intro hp
    exact .cons ⟨hR, hp _ (by simp)⟩ (ih fun x hx => hp x (by simp [hx]))

/-- Characterization: parsing the token stream of qualifier keywords
followed by a base keyword resolves the base keyword against the
`applyQ`-fold of the qualifiers (and reports its `const` component),
independently of token positions. -/
theorem charRun (reg : Reg) (inFlags : Nat) (src : String) (qs : List String) (b : String)
    (hqs : ∀ x ∈ qs, isQualKw x = true)
    (hb : isQualKw b = false) (hbs : b ≠ "struct") (hbu : b ≠ "union") :
    ParseTypeToks reg src (wordToks (qs ++ [b]) 1) inFlags =
      Except.map (fun ty => (ty, (List.foldl applyQ (0, false) qs).2))
        (lookupType reg b (List.foldl applyQ (0, false) qs).1) := by
  obtain ⟨ts, tb, pe, hdec, hfa, htb1, htb2⟩ := wordToks_decomp qs b 1
  have hfuel : fuelOf (wordToks (qs ++ [b]) 1) = 4 * qs.length + 32 := by
    rw [fuelOf, wordToks_length]
    simp only [List.length_append, List.length_cons, List.length_nil]
    omega
  have hrun : parseLoop reg (fuelOf (wordToks (qs ++ [b]) 1)) inFlags
      ⟨src, wordToks (qs ++ [b]) 1, 0, .unknown, ""⟩ none 0 false =
      Except.map (fun ty => (ty, (List.foldl applyQ (0, false) qs).2,
        (⟨src, [], pe, .eof, ""⟩ : PState)))
        (lookupType reg b (List.foldl applyQ (0, false) qs).1) := by
    rw [hfuel, hdec]
    have hfa3 := forall₂_strengthen hfa hqs
    cases qs with
    | nil =>
      cases hfa3
      simp only [List.length_nil, Nat.mul_zero, Nat.zero_add, List.nil_append,
        List.foldl_nil]
      rw [show (32 : Nat) = 30 + 2 from rfl]
      rw [loop_toIdent reg 30 inFlags ⟨src, [tb, ⟨pe, .eof, ""⟩], 0, .unknown, ""⟩
        none 0 false (by simp [pnext, htb1])]
      have hpn : pnext (⟨src, [tb, ⟨pe, .eof, ""⟩], 0, .unknown, ""⟩ : PState) =
          ⟨src, [⟨pe, .eof, ""⟩], tb.pos, .ident, b⟩ := by
        simp [pnext, htb1, htb2]
      rw [hpn]
      exact resolveRun reg 25 inFlags src tb.pos pe b 0 false hb hbs hbu
    | cons w qs2 =>
      obtain ⟨t1, ts1, ⟨⟨hk, hl⟩, hq⟩, hrest, rfl⟩ := List.forall₂_cons_right_iff.mp hfa3
      simp only [List.cons_append, List.length_cons]
      rw [show 4 * (qs2.length + 1) + 32 = (4 * qs2.length + 34) + 2 from by ring]
      rw [loop_toIdent reg (4 * qs2.length + 34) inFlags
        ⟨src, t1 :: (ts1 ++ [tb, ⟨pe, .eof, ""⟩]), 0, .unknown, ""⟩
        none 0 false (by simp [pnext, hk])]
      have hpn : pnext (⟨src, t1 :: (ts1 ++ [tb, ⟨pe, .eof, ""⟩]), 0, .unknown, ""⟩ : PState) =
          ⟨src, ts1 ++ [tb, ⟨pe, .eof, ""⟩], t1.pos, .ident, w⟩ := by
        simp [pnext, hk, hl]
      rw [hpn]
      rw [show 4 * qs2.length + 34 = 4 * qs2.length + 25 + 9 from by ring]
      exact qualRun qs2 ts1 w b tb reg inFlags src t1.pos pe 0 false 25
        hq hb hbs hbu hrest htb1 htb2
  cases hlk : lookupType reg b (List.foldl applyQ (0, false) qs).1 with
  | error e => simp [ParseTypeToks, hrun, hlk, Except.map]
  | ok ty => simp [ParseTypeToks, hrun, hlk, Except.map]

/-- Function `applyQ` keeps the flag accumulator below 64 (all six flag bits). -/
theorem applyQ_lt : ∀ (w : String), isQualKw w = true →
    ∀ fl : Nat, fl < 64 → ∀ c : Bool, (applyQ (fl, c) w).1 < 64 := by
  intro w hw
  simp only [isQualKw, Bool.or_eq_true, decide_eq_true_eq] at hw
  rcases hw with ((((((((h | h) | h) | h) | h) | h) | h) | h) | h) | h <;> subst h <;> decide

/-- Two qualifier keywords commute on the `(flags, isConst)`
accumulator. -/
theorem applyQ_comm : ∀ (w1 w2 : String), isQualKw w1 = true → isQualKw w2 = true →
    ∀ fl : Nat, fl < 64 → ∀ c : Bool,
      applyQ (applyQ (fl, c) w1) w2 = applyQ (applyQ (fl, c) w2) w1 := by
  intro w1 w2 h1 h2
  simp only [isQualKw, Bool.or_eq_true, decide_eq_true_eq] at h1 h2
  rcases h1 with ((((((((h | h) | h) | h) | h) | h) | h) | h) | h) | h <;> subst h <;>
    rcases h2 with ((((((((g | g) | g) | g) | g) | g) | g) | g) | g) | g <;> subst g <;> decide

/-- The `applyQ` fold over qualifier keywords is invariant under
permutation. -/
theorem foldl_applyQ_perm : ∀ {l1 l2 : List String}, l1.Perm l2 →
    (∀ w ∈ l1, isQualKw w = true) → ∀ st : Nat × Bool, st.1 < 64 →
    List.foldl applyQ st l1 = List.foldl applyQ st l2 := by
  intro l1 l2 hp
  induction hp with
  | nil => intro _ st _; rfl
  | cons x hp ih =>
    intro hq st hst
    simp only [List.foldl_cons]
    exact ih (fun w hw => hq w (by simp [hw])) (applyQ st x)
      (applyQ_lt x (hq x (by simp)) st.1 hst st.2)
  | swap x y l =>
    intro hq st hst
    simp only [List.foldl_cons]
    rw [applyQ_comm y x (hq y (by simp)) (hq x (by simp)) st.1 hst st.2]
  | trans h12 _h23 ih1 ih2 =>
    intro hq st hst
    rw [ih1 hq st hst, ih2 (fun w hw => hq w (h12.mem_iff.mpr hw)) st hst]

/-- Every qualifier keyword lexes as one identifier token. -/
theorem isQualKw_isIdentWord : ∀ (w : String), isQualKw w = true → isIdentWordB w = true := by
  intro w hw
  simp only [isQualKw, Bool.or_eq_true, decide_eq_true_eq] at hw
  rcases hw with ((((((((h | h) | h) | h) | h) | h) | h) | h) | h) | h <;> subst h <;> decide

/-- Claim C8: any two permutations of the same qualifier keywords in
front of the same base keyword parse to the identical `Type` value and
the identical `isConst` flag. -/
theorem c8_qualifier_perm :
    ∀ (reg : Reg) (inFlags : Nat) (qs qs' : List String) (b : String),
      qs.Perm qs' →
      (∀ w ∈ qs, isQualKw w = true) →
      isIdentWordB b = true → isQualKw b = false → b ≠ "struct" → b ≠ "union" →
      ParseTypeStr reg (joinWords (qs ++ [b])) inFlags =
        ParseTypeStr reg (joinWords (qs' ++ [b])) inFlags := by
  intro reg inFlags qs qs' b hp hq hbw hb hbs hbu
  have hq' : ∀ w ∈ qs', isQualKw w = true := fun w hw => hq w (hp.mem_iff.mpr hw)
  have hwords : ∀ w ∈ qs ++ [b], isIdentWordB w = true := by
    intro w hw
    rcases List.mem_append.mp hw with h | h
    · exact isQualKw_isIdentWord w (hq w h)
    · rw [List.mem_singleton.mp h]
      exact hbw
  have hwords' : ∀ w ∈ qs' ++ [b], isIdentWordB w = true := by
    intro w hw
    rcases List.mem_append.mp hw with h | h
    · exact isQualKw_isIdentWord w (hq' w h)
    · rw [List.mem_singleton.mp h]
      exact hbw
  have ht1 : tokenizeAux (joinWords (qs ++ [b])).data 1 none = wordToks (qs ++ [b]) 1 :=
    tok_words _ 1 (by simp) hwords
  have ht2 : tokenizeAux (joinWords (qs' ++ [b])).data 1 none = wordToks (qs' ++ [b]) 1 :=
    tok_words _ 1 (by simp) hwords'
  rw [ParseTypeStr, ParseTypeStr, ht1, ht2]
  rw [charRun reg inFlags _ qs b hq hb hbs hbu,
    charRun reg inFlags _ qs' b hq' hb hbs hbu]
  rw [foldl_applyQ_perm hp hq (0, false) (by norm_num)]

/-- Witness for C8: `unsigned long int` and `long unsigned int` parse
identically. -/
theorem c8_witness :
    ParseTypeStr regEmpty (joinWords (["unsigned", "long"] ++ ["int"])) 0 =
      ParseTypeStr regEmpty (joinWords (["long", "unsigned"] ++ ["int"])) 0 :=
  c8_qualifier_perm regEmpty 0 ["unsigned", "long"] ["long", "unsigned"] "int"
    (List.Perm.swap "long" "unsigned" []) (by decide) (by decide) (by decide)
    (by decide) (by decide)

end C2GoTypes
